import Mathlib

/-!
# Verification of the Snowflake adapter (`dbt/adapters/snowflake/impl.py`)

A shallow embedding of the adapter's pure logic:

* Python strings are modelled as `List Char`; Python's `str.upper()` /
  `str.lower()` are modelled character-wise by `Char.toUpper` / `Char.toLower`
  (the identifiers involved are ASCII database/schema/table names).
* Fallible database calls are modelled by `Except DbtError` values: the outcome
  of the underlying macro/query execution is passed to each embedded function
  as an explicit argument, and the function's own control flow (suppression,
  wrapping, re-raising) is transcribed from the source.
* The relations cache (dbt-core's `RelationsCache`, an external collaborator of
  this module) is modelled from the spec where noted.

Definitions come first, then the theorems about them.
-/

/-- A Python string, as a list of characters. -/
abbrev Str := List Char

/-- Python `str.upper()`, character-wise (ASCII case folding). -/
def strUpper (s : Str) : Str := s.map Char.toUpper

/-- Python `str.lower()`, character-wise (ASCII case folding). -/
def strLower (s : Str) : Str := s.map Char.toLower

/-! ## Identifier Normalizer (`SnowflakeAdapter._make_match_kwargs`) -/

/-- The three quoting booleans of `self.config.quoting`. -/
structure Quoting where
  database : Bool
  schema : Bool
  identifier : Bool
deriving DecidableEq

/-- One arm of `_make_match_kwargs`:
`if component is not None and quoting[part] is False: component = component.upper()`. -/
def applyQuoteCase (flag : Bool) (v : Option Str) : Option Str :=
  match v with
  | some x => if flag = false then some (strUpper x) else some x
  | none => none

/-- The result dictionary of `_make_match_kwargs` after `filter_null_values`:
a field holding `none` models a key dropped from the dictionary. -/
structure MatchKwargs where
  identifier : Option Str
  schema : Option Str
  database : Option Str
deriving DecidableEq

/-- `SnowflakeAdapter._make_match_kwargs`: upper-case each present component
whose quoting flag is `False`, then drop absent components
(`filter_null_values`). -/
def makeMatchKwargs (q : Quoting) (database schema identifier : Option Str) :
    MatchKwargs :=
  { identifier := applyQuoteCase q.identifier identifier
    schema := applyQuoteCase q.schema schema
    database := applyQuoteCase q.database database }

/-! ## Errors and the Object Lister -/

/-- The two dbt exception classes the adapter code distinguishes:
`DatabaseException` (raised by the warehouse client) and `RuntimeException`
(the generic runtime failure the adapter wraps database errors into). -/
inductive DbtError where
  | databaseError (msg : Str)
  | runtimeError (msg : Str)
deriving DecidableEq

/-- One row of `show terse schemas in database`; the adapter reads only the
`name` column. -/
structure SchemaRow where
  name : Str
deriving DecidableEq

/-- The message built by `list_schemas` on a database error:
`f'Database error while listing schemas in database "{database}"\n{exc}'`. -/
def listSchemasErrorMsg (database msg : Str) : Str :=
  "Database error while listing schemas in database \"".toList ++ database ++
    "\"\n".toList ++ msg

/-- `SnowflakeAdapter.list_schemas`, as a function of the outcome of the
`list_schemas` macro call: a `DatabaseException` is wrapped into a
`RuntimeException` carrying the database name and original message; on success
the `name` column is returned. -/
def list_schemas (database : Str)
    (macroResult : Except DbtError (List SchemaRow)) : Except DbtError (List Str) :=
  match macroResult with
  | .ok results => .ok (results.map SchemaRow.name)
  | .error (.databaseError msg) =>
      .error (.runtimeError (listSchemasErrorMsg database msg))
  | .error e => .error e

/-- `SnowflakeAdapter.get_columns_in_relation`, as a function of the outcome of
`super().get_columns_in_relation(relation)`: a `DatabaseException` whose
message contains `"does not exist or not authorized"` becomes an empty column
list; everything else passes through. -/
def get_columns_in_relation {α : Type} (superResult : Except DbtError (List α)) :
    Except DbtError (List α) :=
  match superResult with
  | .error (.databaseError msg) =>
      if "does not exist or not authorized".toList <:+: msg then .ok []
      else .error (.databaseError msg)
  | r => r

/-- Modelled from the spec: the relation-kind enum of §3 (the host framework's
`RelationType`, not part of this repository's sources): Table, View, CTE,
MaterializedView, External, Unknown. -/
inductive RelationType where
  | table
  | view
  | cte
  | materializedView
  | external
  | unknown
deriving DecidableEq

/-- Modelled from the spec: `Relation.get_relation_type` (host framework),
parsing a kind string into the enum; an unrecognized string yields `none`
(the host raises `ValueError`, which the adapter catches). -/
def getRelationTypeOpt (s : Str) : Option RelationType :=
  if s = "table".toList then some .table
  else if s = "view".toList then some .view
  else if s = "cte".toList then some .cte
  else if s = "materializedview".toList then some .materializedView
  else if s = "external".toList then some .external
  else none

/-- One result row of an object-listing query, with the four columns the
adapter reads: `database_name`, `schema_name`, `name`, `kind`. -/
structure DatabaseObjectRow where
  database_name : Str
  schema_name : Str
  name : Str
  kind : Str
deriving DecidableEq

/-- The relation descriptor built by `self.Relation.create(...)` in the
adapter: the three name parts, the parsed type, and the quote policy. -/
structure SnowflakeRelation where
  database : Str
  schema : Str
  identifier : Str
  type : RelationType
  quoteDatabase : Bool
  quoteSchema : Bool
  quoteIdentifier : Bool
deriving DecidableEq

/-- The loop body of `list_relations_without_caching`: parse the lowered
`kind` (falling back to `External` on `ValueError`), then
`self.Relation.create` with quote policy
`{"database": True, "schema": True, "identifier": True}`. -/
def listRelationsRowToRelation (row : DatabaseObjectRow) : SnowflakeRelation :=
  let t :=
    match getRelationTypeOpt (strLower row.kind) with
    | some t => t
    | none => RelationType.external
  { database := row.database_name
    schema := row.schema_name
    identifier := row.name
    type := t
    quoteDatabase := true
    quoteSchema := true
    quoteIdentifier := true }

/-- `SnowflakeAdapter._database_object_to_relation`: parse the lowered `kind`
(falling back to `External` on `ValueError`), then `self.Relation.create`
with quote policy `{"database": True, "schema": True, "identifier": True}`. -/
def databaseObjectToRelation (database_object : DatabaseObjectRow) :
    SnowflakeRelation :=
  let t :=
    match getRelationTypeOpt (strLower database_object.kind) with
    | some t => t
    | none => RelationType.external
  { database := database_object.database_name
    schema := database_object.schema_name
    identifier := database_object.name
    type := t
    quoteDatabase := true
    quoteSchema := true
    quoteIdentifier := true }

/-- `SnowflakeAdapter.list_relations_without_caching`, as a function of the
outcome of the `list_relations_without_caching` macro call: a
`DatabaseException` whose message contains `"Object does not exist"` becomes an
empty result; other errors propagate; rows are mapped to relations. -/
def list_relations_without_caching
    (macroResult : Except DbtError (List DatabaseObjectRow)) :
    Except DbtError (List SnowflakeRelation) :=
  match macroResult with
  | .error (.databaseError msg) =>
      if "Object does not exist".toList <:+: msg then .ok []
      else .error (.databaseError msg)
  | .error e => .error e
  | .ok results => .ok (results.map listRelationsRowToRelation)

/-! ## Relation Cache

The cache object itself (`self.cache`, dbt-core's `RelationsCache`) is not part
of this repository's sources; it is modelled from the spec (§3, §4.3): a map
from normalized (database, schema, identifier) keys to descriptors plus a set
of known normalized (database, schema) pairs, where normalization of cache keys
is case folding. -/

/-- A normalized (database, schema) pair. -/
abbrev SchemaKey := Str × Str

/-- A normalized (database, schema, identifier) key. -/
abbrev RelKey := Str × Str × Str

/-- Modelled from the spec: the normalized cache key of a relation
(§3: "keyed by normalized (database, schema, identifier)"). -/
def relKey (r : SnowflakeRelation) : RelKey :=
  (strLower r.database, strLower r.schema, strLower r.identifier)

/-- Normalize a (database, schema) pair. -/
def normPair (p : SchemaKey) : SchemaKey := (strLower p.1, strLower p.2)

/-- Modelled from the spec: the `CacheState` of §3 — `relationsByKey` plus
`knownSchemas` (association list and list-as-set respectively). -/
structure RelationsCache where
  relations : List (RelKey × SnowflakeRelation)
  schemas : List SchemaKey
deriving DecidableEq

/-- The cache at session start: no relations, no known schemas. -/
def emptyCache : RelationsCache := ⟨[], []⟩

/-- Insert into a list-as-set. -/
def insertIfAbsent {α : Type} [DecidableEq α] (a : α) (l : List α) : List α :=
  if a ∈ l then l else a :: l

/-- Modelled from the spec: `cache.add(relation)` — insert/overwrite the
descriptor at its normalized key and mark its schema as known (§4.3). -/
def cacheAdd (c : RelationsCache) (r : SnowflakeRelation) : RelationsCache :=
  let k := relKey r
  { relations := (k, r) :: c.relations.filter (fun p => decide (p.1 ≠ k))
    schemas := insertIfAbsent (k.1, k.2.1) c.schemas }

/-- Modelled from the spec: `cache.update_schemas(pairs)` — mark every given
(database, schema) pair, normalized, as known. -/
def updateSchemas (c : RelationsCache) (pairs : List SchemaKey) : RelationsCache :=
  { c with
    schemas := pairs.foldl (fun acc p => insertIfAbsent (normPair p) acc) c.schemas }

/-- Modelled from the spec: `cache.clear()` — remove all entries and all
known-schema markers. -/
def cacheClear (_ : RelationsCache) : RelationsCache := emptyCache

/-- Modelled from the spec: `isSchemaKnown(database, schema)` — true iff the
normalized pair is in `knownSchemas`. -/
def isSchemaKnown (c : RelationsCache) (database schema : Str) : Prop :=
  (strLower database, strLower schema) ∈ c.schemas

instance (c : RelationsCache) (database schema : Str) :
    Decidable (isSchemaKnown c database schema) := by
  unfold isSchemaKnown
  infer_instance

/-- Modelled from the spec: `getRelationsInSchema(database, schema)` — the
descriptors whose normalized (database, schema) matches. -/
def getRelationsInSchema (c : RelationsCache) (database schema : Str) :
    List SnowflakeRelation :=
  (c.relations.filter fun p =>
    decide (p.1.1 = strLower database ∧ p.1.2.1 = strLower schema)).map Prod.snd

/-! ## Bulk cache population
(`set_relations_cache` / `_relations_cache_for_schemas`) -/

/-- One entry of `_get_cache_schemas(manifest)`: a (database, schema) pair the
manifest requires to be cache-resident. -/
structure CacheSchema where
  database : Str
  schema : Str
deriving DecidableEq

/-- The message built by `_relations_cache_for_schemas` on a database error:
`f'Database error while listing objects in database "{database}"\n{exc}'`. -/
def listObjectsErrorMsg (database msg : Str) : Str :=
  "Database error while listing objects in database \"".toList ++ database ++
    "\"\n".toList ++ msg

/-- The per-database loop of `_relations_cache_for_schemas`: for each database,
run the `snowflake__list_database_objects` macro (outcome given by `lister`);
wrap a `DatabaseException` into a `RuntimeException`; on success add every
returned object whose lowercased `schema_name` is among the requested
lowercased schema names. Besides the updated cache, it returns the list of
databases actually queried and the list of relations passed to `cache.add`,
in order. -/
def bulkLoadDatabases (lister : Str → Except DbtError (List DatabaseObjectRow))
    (cache_schema_names : List Str) :
    List Str → RelationsCache →
      Except DbtError (RelationsCache × List Str × List SnowflakeRelation)
  | [], cache => .ok (cache, [], [])
  | database :: rest, cache =>
    match lister database with
    | .error (.databaseError msg) =>
        .error (.runtimeError (listObjectsErrorMsg database msg))
    | .error e => .error e
    | .ok results =>
      let eligible := results.filter fun row =>
        decide (strLower row.schema_name ∈ cache_schema_names)
      let cache1 :=
        eligible.foldl (fun c row => cacheAdd c (databaseObjectToRelation row)) cache
      match bulkLoadDatabases lister cache_schema_names rest cache1 with
      | .error e => .error e
      | .ok (cacheFin, queried, added) =>
          .ok (cacheFin, database :: queried,
            eligible.map databaseObjectToRelation ++ added)

/-- `SnowflakeAdapter._relations_cache_for_schemas`: collect the distinct
databases and the lowercased schema names of the requested pairs, run the
per-database loop, then mark every requested pair as known via
`cache.update_schemas`. -/
def relationsCacheForSchemas
    (lister : Str → Except DbtError (List DatabaseObjectRow))
    (cache_schemas : List CacheSchema) (cache : RelationsCache) :
    Except DbtError (RelationsCache × List Str × List SnowflakeRelation) :=
  let schema_databases := (cache_schemas.map CacheSchema.database).dedup
  let cache_schema_names := cache_schemas.map fun cs => strLower cs.schema
  match bulkLoadDatabases lister cache_schema_names schema_databases cache with
  | .error e => .error e
  | .ok (cache1, queried, added) =>
      .ok (updateSchemas cache1 (cache_schemas.map fun cs => (cs.database, cs.schema)),
        queried, added)

/-- `SnowflakeAdapter.set_relations_cache`: optionally clear, then reload all
requested schemas (the lock hold around this body is modelled separately by
the scheduler below). -/
def set_relations_cache (lister : Str → Except DbtError (List DatabaseObjectRow))
    (cache_schemas : List CacheSchema) (clear : Bool) (cache : RelationsCache) :
    Except DbtError (RelationsCache × List Str × List SnowflakeRelation) :=
  relationsCacheForSchemas lister cache_schemas
    (if clear then cacheClear cache else cache)

/-! ## Concurrency model for the bulk population

`set_relations_cache` executes `clear` (optional) and the whole reload inside a
single `with self.cache.lock:` block. The interleaving of that writer with a
concurrent reader is modelled as a small transition system: each thread's
pending events run in program order, the lock is exclusive, and cache
mutations/reads require holding it. -/

/-- A primitive mutation of the cache state. -/
inductive CacheMutation where
  | clearAll
  | add (r : SnowflakeRelation)
  | markSchemas (pairs : List SchemaKey)

/-- Apply one mutation. -/
def applyMutation (c : RelationsCache) : CacheMutation → RelationsCache
  | .clearAll => cacheClear c
  | .add r => cacheAdd c r
  | .markSchemas pairs => updateSchemas c pairs

/-- Apply a sequence of mutations in order. -/
def applyMutations (c : RelationsCache) (ms : List CacheMutation) : RelationsCache :=
  ms.foldl applyMutation c

/-- The cache mutations performed by one successful `set_relations_cache`
call: the optional `clear`, one `add` per eligible listed object, and the
final `update_schemas` over all requested pairs. -/
def bulkMutations (clear : Bool) (added : List SnowflakeRelation)
    (pairs : List SchemaKey) : List CacheMutation :=
  (if clear then [CacheMutation.clearAll] else []) ++
    added.map CacheMutation.add ++ [CacheMutation.markSchemas pairs]

/-- One scheduled action of a thread. -/
inductive ThreadEvent where
  | acquire
  | release
  | mutate (m : CacheMutation)
  | readCache

/-- A configuration of the two-thread system: the writer's and reader's
pending events, the lock owner (`some true` = writer, `some false` = reader),
the shared cache, and what the reader observed at its read, if it already
read. -/
structure SchedState where
  wPending : List ThreadEvent
  rPending : List ThreadEvent
  lockOwner : Option Bool
  cache : RelationsCache
  observed : Option RelationsCache

/-- Interleaving semantics: either thread runs its next pending event,
subject to lock exclusivity; mutating or reading the cache requires holding
the lock. -/
inductive SchedStep : SchedState → SchedState → Prop where
  | wAcquire (w r : List ThreadEvent) (c : RelationsCache)
      (o : Option RelationsCache) :
      SchedStep ⟨.acquire :: w, r, none, c, o⟩ ⟨w, r, some true, c, o⟩
  | wMutate (m : CacheMutation) (w r : List ThreadEvent) (c : RelationsCache)
      (o : Option RelationsCache) :
      SchedStep ⟨.mutate m :: w, r, some true, c, o⟩
        ⟨w, r, some true, applyMutation c m, o⟩
  | wRelease (w r : List ThreadEvent) (c : RelationsCache)
      (o : Option RelationsCache) :
      SchedStep ⟨.release :: w, r, some true, c, o⟩ ⟨w, r, none, c, o⟩
  | rAcquire (w r : List ThreadEvent) (c : RelationsCache)
      (o : Option RelationsCache) :
      SchedStep ⟨w, .acquire :: r, none, c, o⟩ ⟨w, r, some false, c, o⟩
  | rRead (w r : List ThreadEvent) (c : RelationsCache)
      (o : Option RelationsCache) :
      SchedStep ⟨w, .readCache :: r, some false, c, o⟩
        ⟨w, r, some false, c, some c⟩
  | rRelease (w r : List ThreadEvent) (c : RelationsCache)
      (o : Option RelationsCache) :
      SchedStep ⟨w, .release :: r, some false, c, o⟩ ⟨w, r, none, c, o⟩

/-- The writer thread of one bulk-populate call: a single lock hold around all
of its mutations — the `with self.cache.lock:` block of
`set_relations_cache`. -/
def writerEvents (ms : List CacheMutation) : List ThreadEvent :=
  ThreadEvent.acquire :: ms.map ThreadEvent.mutate ++ [ThreadEvent.release]

/-- A concurrent reader thread: acquire the lock, read the cache, release. -/
def readerEvents : List ThreadEvent :=
  [ThreadEvent.acquire, ThreadEvent.readCache, ThreadEvent.release]

/-- Initial configuration: both threads fully pending, lock free, cache at its
pre-bulk state, nothing observed yet. -/
def initSched (ms : List CacheMutation) (c : RelationsCache) : SchedState :=
  ⟨writerEvents ms, readerEvents, none, c, none⟩

/-- Reachability under the interleaving semantics. -/
def SchedReach : SchedState → SchedState → Prop :=
  Relation.ReflTransGen SchedStep

/-- The invariant of the two-thread interleaving: the writer is either not
started (cache untouched), mid-critical-section (holding the lock, cache at an
intermediate fold), or finished (cache fully mutated); and anything the reader
observed is the pre-bulk or post-bulk cache. -/
def SchedInv (ms : List CacheMutation) (c0 : RelationsCache) (s : SchedState) :
    Prop :=
  ((s.wPending = writerEvents ms ∧ s.cache = c0 ∧ s.lockOwner ≠ some true) ∨
   (∃ done rest, ms = done ++ rest ∧
      s.wPending = rest.map ThreadEvent.mutate ++ [ThreadEvent.release] ∧
      s.cache = applyMutations c0 done ∧ s.lockOwner = some true) ∨
   (s.wPending = [] ∧ s.cache = applyMutations c0 ms ∧ s.lockOwner ≠ some true)) ∧
  (s.observed = none ∨ s.observed = some c0 ∨
    s.observed = some (applyMutations c0 ms))

/-! ## Warehouse-Context Hook (`pre_model_hook` / `post_model_hook`) -/

/-- The warehouse session, as the adapter can affect it: the currently active
warehouse and the log of SQL statements issued via `self.execute`. -/
structure Session where
  warehouse : Str
  log : List Str
deriving DecidableEq

/-- The query text issued by `_get_warehouse`. -/
def currentWarehouseQuery : Str :=
  "select current_warehouse() as warehouse".toList

/-- `SnowflakeAdapter._get_warehouse`: issue the current-warehouse query and
return the single result cell — the session's active warehouse. -/
def getWarehouse (st : Session) : Str × Session :=
  (st.warehouse, { st with log := st.log ++ [currentWarehouseQuery] })

/-- The statement issued by `_use_warehouse`: `"use warehouse {}".format(w)` —
the name interpolated verbatim; quotes are never applied. -/
def useWarehouseStmt (warehouse : Str) : Str :=
  "use warehouse ".toList ++ warehouse

/-- `SnowflakeAdapter._use_warehouse`: issue the use-warehouse statement,
which makes the given warehouse active. -/
def useWarehouse (st : Session) (warehouse : Str) : Session :=
  { warehouse := warehouse, log := st.log ++ [useWarehouseStmt warehouse] }

/-- `SnowflakeAdapter.pre_model_hook`. `configWarehouse = none` models a
config mapping without the `snowflake_warehouse` key, so
`config.get("snowflake_warehouse", default_warehouse)` is modelled by
`configWarehouse.getD defaultWarehouse`. Returns the saved context and the
session after the hook. -/
def pre_model_hook (configWarehouse : Option (Option Str))
    (defaultWarehouse : Option Str) (st : Session) : Option Str × Session :=
  let warehouse := configWarehouse.getD defaultWarehouse
  match warehouse with
  | none => (none, st)
  | some w =>
    if some w = defaultWarehouse then (none, st)
    else
      let p := getWarehouse st
      (some p.1, useWarehouse p.2 w)

/-- `SnowflakeAdapter.post_model_hook`: restore the saved warehouse iff the
entry hook returned one. -/
def post_model_hook (context : Option Str) (st : Session) : Session :=
  match context with
  | none => st
  | some c => useWarehouse st c

/-! ## Concrete inputs for counterexamples and witnesses -/

/-- A listed object of database `D1` living in schema `B`. -/
def exRowC1 : DatabaseObjectRow :=
  ⟨"D1".toList, "B".toList, "T".toList, "TABLE".toList⟩

/-- A lister for which database `D1` contains exactly `exRowC1` and every
other database is empty. -/
def exListerC1 : Str → Except DbtError (List DatabaseObjectRow) :=
  fun db => if db = "D1".toList then .ok [exRowC1] else .ok []

/-- Requested pairs: `(D1, A)` and `(D2, B)` — schema `B` is requested only in
database `D2`. -/
def exSchemasC1 : List CacheSchema :=
  [⟨"D1".toList, "A".toList⟩, ⟨"D2".toList, "B".toList⟩]

/-- The relations passed to `cache.add` by a bulk population run (empty on
failure); a projection used to state counterexamples concretely. -/
def bulkAdded (lister : Str → Except DbtError (List DatabaseObjectRow))
    (cache_schemas : List CacheSchema) (cache : RelationsCache) :
    List SnowflakeRelation :=
  match relationsCacheForSchemas lister cache_schemas cache with
  | .ok r => r.2.2
  | .error _ => []

/-! ## Theorems -/

/-- `Char.toNat` of `Char.ofNat n` recovers `n` for a valid scalar value. -/
theorem charToNat_ofNat_of_valid (n : Nat) (h : n.isValidChar) :
    (Char.ofNat n).toNat = n := by
  rw [Char.ofNat, dif_pos h]
  simp [Char.ofNatAux, Char.toNat, UInt32.toNat]

/-- ASCII upper-casing is idempotent on characters. -/
theorem charToUpper_idem (c : Char) : c.toUpper.toUpper = c.toUpper := by
  unfold Char.toUpper
  by_cases h : c.toNat ≥ 97 ∧ c.toNat ≤ 122
  · rw [if_pos h]
    have hv : (c.toNat - 32).isValidChar := Or.inl (by omega)
    rw [if_neg]
    rw [charToNat_ofNat_of_valid _ hv]
    omega
  · rw [if_neg h, if_neg h]

/-- `strUpper` is idempotent. -/
theorem strUpper_idem (s : Str) : strUpper (strUpper s) = strUpper s := by
  simp only [strUpper, List.map_map]
  exact List.map_congr_left fun c _ => charToUpper_idem c

theorem applyQuoteCase_idem (flag : Bool) (v : Option Str) :
    applyQuoteCase flag (applyQuoteCase flag v) = applyQuoteCase flag v := by
  cases v with
  | none => rfl
  | some x =>
    cases flag with
    | false => simp [applyQuoteCase, strUpper_idem]
    | true => simp [applyQuoteCase]

theorem applyQuoteCase_spec (flag : Bool) (v : Option Str) :
    (applyQuoteCase flag v = none ↔ v = none) ∧
    (flag = true → applyQuoteCase flag v = v) ∧
    (∀ x, v = some x → flag = false → applyQuoteCase flag v = some (strUpper x)) := by
  cases v <;> cases flag <;> simp [applyQuoteCase]

/-- C4: `_make_match_kwargs` upper-cases exactly those present components whose
quoting flag is false, leaves components with flag true unchanged, keeps absent
components absent (never coerced to an empty string), and with all flags false
maps `("db","sch","Tbl")` to `("DB","SCH","TBL")`. -/
theorem makeMatchKwargs_case_folding (q : Quoting) (d s i : Option Str) :
    ((makeMatchKwargs q d s i).database = none ↔ d = none) ∧
    ((makeMatchKwargs q d s i).schema = none ↔ s = none) ∧
    ((makeMatchKwargs q d s i).identifier = none ↔ i = none) ∧
    (q.database = true → (makeMatchKwargs q d s i).database = d) ∧
    (q.schema = true → (makeMatchKwargs q d s i).schema = s) ∧
    (q.identifier = true → (makeMatchKwargs q d s i).identifier = i) ∧
    (∀ x, d = some x → q.database = false →
      (makeMatchKwargs q d s i).database = some (strUpper x)) ∧
    (∀ x, s = some x → q.schema = false →
      (makeMatchKwargs q d s i).schema = some (strUpper x)) ∧
    (∀ x, i = some x → q.identifier = false →
      (makeMatchKwargs q d s i).identifier = some (strUpper x)) ∧
    makeMatchKwargs ⟨false, false, false⟩
      (some "db".toList) (some "sch".toList) (some "Tbl".toList) =
      ⟨some "TBL".toList, some "SCH".toList, some "DB".toList⟩ :=
  ⟨(applyQuoteCase_spec q.database d).1, (applyQuoteCase_spec q.schema s).1,
    (applyQuoteCase_spec q.identifier i).1,
    (applyQuoteCase_spec q.database d).2.1, (applyQuoteCase_spec q.schema s).2.1,
    (applyQuoteCase_spec q.identifier i).2.1,
    (applyQuoteCase_spec q.database d).2.2, (applyQuoteCase_spec q.schema s).2.2,
    (applyQuoteCase_spec q.identifier i).2.2, by decide⟩

/-- Witness for C4 at a concrete input: with quoting `false` for the database
part, a present database component `"db"` is upper-cased. -/
theorem makeMatchKwargs_case_folding_witness :
    (makeMatchKwargs ⟨false, false, false⟩
      (some "db".toList) (some "sch".toList) (some "Tbl".toList)).database =
      some (strUpper "db".toList) :=
  (makeMatchKwargs_case_folding ⟨false, false, false⟩
    (some "db".toList) (some "sch".toList)
    (some "Tbl".toList)).2.2.2.2.2.2.1 "db".toList rfl rfl

/-- C5: normalization is idempotent — re-normalizing the triple produced by
`_make_match_kwargs` (with the same quoting flags) yields the same result,
for every triple and every combination of the three quoting flags. -/
theorem makeMatchKwargs_idempotent (q : Quoting) (d s i : Option Str) :
    makeMatchKwargs q (makeMatchKwargs q d s i).database
        (makeMatchKwargs q d s i).schema (makeMatchKwargs q d s i).identifier =
      makeMatchKwargs q d s i := by
  simp [makeMatchKwargs, applyQuoteCase_idem]

/-- C6: the row-to-descriptor mapping of `list_relations_without_caching` and
`_database_object_to_relation` agree on every row; both fix the quote policy
`{database: true, schema: true, identifier: true}`, and a `kind` that does not
parse maps to `External` rather than failing. -/
theorem rowToRelation_equivalent (row : DatabaseObjectRow) :
    listRelationsRowToRelation row = databaseObjectToRelation row ∧
    (listRelationsRowToRelation row).quoteDatabase = true ∧
    (listRelationsRowToRelation row).quoteSchema = true ∧
    (listRelationsRowToRelation row).quoteIdentifier = true ∧
    (getRelationTypeOpt (strLower row.kind) = none →
      (listRelationsRowToRelation row).type = RelationType.external ∧
      (databaseObjectToRelation row).type = RelationType.external) := by
  refine ⟨rfl, rfl, rfl, rfl, fun h => ?_⟩
  constructor <;> simp [listRelationsRowToRelation, databaseObjectToRelation, h]

/-- Witness for C6 at a concrete row: an unrecognized kind `"STAGE"` maps to
`External` in both mappings. -/
theorem rowToRelation_equivalent_witness :
    (listRelationsRowToRelation
      ⟨"DB".toList, "S".toList, "T".toList, "STAGE".toList⟩).type =
        RelationType.external ∧
    (databaseObjectToRelation
      ⟨"DB".toList, "S".toList, "T".toList, "STAGE".toList⟩).type =
        RelationType.external :=
  (rowToRelation_equivalent
    ⟨"DB".toList, "S".toList, "T".toList, "STAGE".toList⟩).2.2.2.2 (by decide)

/-- C7: not-found failures are suppressed to empty results, not errors:
`list_relations_without_caching` returns `[]` when the macro fails with a
database error whose message contains `"Object does not exist"`, and
`get_columns_in_relation` returns `[]` when the underlying failure message
contains `"does not exist or not authorized"`; every other database failure
(and any non-database failure) in these two operations propagates. -/
theorem notFound_suppressed (α : Type) (msg : Str) :
    ("Object does not exist".toList <:+: msg →
      list_relations_without_caching (.error (.databaseError msg)) = .ok []) ∧
    (¬ "Object does not exist".toList <:+: msg →
      list_relations_without_caching (.error (.databaseError msg)) =
        .error (.databaseError msg)) ∧
    (list_relations_without_caching (.error (.runtimeError msg)) =
      .error (.runtimeError msg)) ∧
    ("does not exist or not authorized".toList <:+: msg →
      @get_columns_in_relation α (.error (.databaseError msg)) = .ok []) ∧
    (¬ "does not exist or not authorized".toList <:+: msg →
      @get_columns_in_relation α (.error (.databaseError msg)) =
        .error (.databaseError msg)) ∧
    (@get_columns_in_relation α (.error (.runtimeError msg)) =
      .error (.runtimeError msg)) := by
  refine ⟨fun h => ?_, fun h => ?_, rfl, fun h => ?_, fun h => ?_, rfl⟩
  · simp only [list_relations_without_caching]
    rw [if_pos h]
  · simp only [list_relations_without_caching]
    rw [if_neg h]
  · simp only [get_columns_in_relation]
    rw [if_pos h]
  · simp only [get_columns_in_relation]
    rw [if_neg h]

/-- Witness for C7 at concrete messages: the matching message is suppressed to
an empty result and a non-matching one propagates. -/
theorem notFound_suppressed_witness :
    list_relations_without_caching
      (.error (.databaseError "Object does not exist".toList)) = .ok [] ∧
    @get_columns_in_relation Str
      (.error (.databaseError "permission denied".toList)) =
      .error (.databaseError "permission denied".toList) :=
  ⟨(notFound_suppressed Str "Object does not exist".toList).1 (by decide),
    (notFound_suppressed Str "permission denied".toList).2.2.2.2.1 (by decide)⟩

/-! ### Bulk population helpers -/

/-- Characterization of a successful per-database loop: every requested
database is queried once in order, the resulting cache is the fold of
`cache.add` over the added relations, and a relation is added iff it comes
from a returned row whose lowercased schema name is among the requested
names. -/
theorem bulkLoadDatabases_ok
    (lister : Str → Except DbtError (List DatabaseObjectRow))
    (names : List Str) :
    ∀ (dbs : List Str) (cache cfin : RelationsCache) (qs : List Str)
      (adds : List SnowflakeRelation),
      bulkLoadDatabases lister names dbs cache = .ok (cfin, qs, adds) →
      qs = dbs ∧ cfin = adds.foldl cacheAdd cache ∧
      ∀ r, r ∈ adds ↔ ∃ db ∈ dbs, ∃ results, lister db = .ok results ∧
        ∃ row ∈ results, strLower row.schema_name ∈ names ∧
          r = databaseObjectToRelation row := by
  intro dbs
  induction dbs with
  | nil =>
    intro cache cfin qs adds h
    simp only [bulkLoadDatabases, Except.ok.injEq, Prod.mk.injEq] at h
    obtain ⟨h1, h2, h3⟩ := h
    subst h1; subst h2; subst h3
    simp
  | cons db rest ih =>
    intro cache cfin qs adds h
    simp only [bulkLoadDatabases] at h
    cases hl : lister db with
    | error e =>
      rw [hl] at h
      cases e <;> simp at h
    | ok results =>
      rw [hl] at h
      dsimp only at h
      cases hrec : bulkLoadDatabases lister names rest
          (List.foldl (fun c row => cacheAdd c (databaseObjectToRelation row))
            cache
            (results.filter fun row =>
              decide (strLower row.schema_name ∈ names))) with
      | error e =>
        rw [hrec] at h
        simp at h
      | ok trip =>
        obtain ⟨cFin1, queried, added⟩ := trip
        rw [hrec] at h
        simp only [Except.ok.injEq, Prod.mk.injEq] at h
        obtain ⟨h1, h2, h3⟩ := h
        obtain ⟨hq, hc, hmem⟩ := ih _ _ _ _ hrec
        subst h1; subst h2; subst h3
        refine ⟨by rw [hq], ?_, ?_⟩
        · rw [hc, List.foldl_append, List.foldl_map]
        · intro r
          constructor
          · intro hr
            rcases List.mem_append.1 hr with hr | hr
            · obtain ⟨row, hrow, rfl⟩ := List.mem_map.1 hr
              obtain ⟨hrow1, hrow2⟩ := List.mem_filter.1 hrow
              exact ⟨db, List.mem_cons_self db rest, results, hl, row, hrow1,
                of_decide_eq_true hrow2, rfl⟩
            · obtain ⟨db1, hdb1, results1, hres1, row, hrow, hcond, rfl⟩ :=
                (hmem r).1 hr
              exact ⟨db1, List.mem_cons_of_mem db hdb1, results1, hres1, row,
                hrow, hcond, rfl⟩
          · rintro ⟨db1, hdb1, results1, hres1, row, hrow, hcond, rfl⟩
            rcases List.mem_cons.1 hdb1 with rfl | hdb1
            · rw [hl] at hres1
              injection hres1 with hres1
              subst hres1
              refine List.mem_append.2 (Or.inl ?_)
              exact List.mem_map.2 ⟨row,
                List.mem_filter.2 ⟨hrow, decide_eq_true hcond⟩, rfl⟩
            · exact List.mem_append.2 (Or.inr ((hmem _).2
                ⟨db1, hdb1, results1, hres1, row, hrow, hcond, rfl⟩))

/-- Provenance of cache entries: an entry of the cache after a sequence of
`add`s either has the key of one of the added relations or was already
present. -/
theorem mem_relations_foldl_cacheAdd :
    ∀ (adds : List SnowflakeRelation) (c : RelationsCache)
      (e : RelKey × SnowflakeRelation),
      e ∈ (adds.foldl cacheAdd c).relations →
      (∃ r ∈ adds, e.1 = relKey r) ∨ e ∈ c.relations := by
  intro adds
  induction adds with
  | nil => exact fun c e h => Or.inr h
  | cons a rest ih =>
    intro c e h
    rw [List.foldl_cons] at h
    rcases ih (cacheAdd c a) e h with h1 | h1
    · obtain ⟨r, hr, hk⟩ := h1
      exact Or.inl ⟨r, List.mem_cons_of_mem a hr, hk⟩
    · simp only [cacheAdd] at h1
      rcases List.mem_cons.1 h1 with rfl | h2
      · exact Or.inl ⟨a, List.mem_cons_self a rest, rfl⟩
      · exact Or.inr (List.mem_of_mem_filter h2)

theorem mem_insertIfAbsent_self {α : Type} [DecidableEq α] (a : α) (l : List α) :
    a ∈ insertIfAbsent a l := by
  unfold insertIfAbsent
  split
  · assumption
  · exact List.mem_cons_self a l

theorem mem_insertIfAbsent_of_mem {α : Type} [DecidableEq α] {x : α} (a : α)
    {l : List α} (h : x ∈ l) : x ∈ insertIfAbsent a l := by
  unfold insertIfAbsent
  split
  · exact h
  · exact List.mem_cons_of_mem a h

theorem mem_schemasFold_of_mem (pairs : List SchemaKey) :
    ∀ (acc : List SchemaKey) (x : SchemaKey), x ∈ acc →
      x ∈ pairs.foldl (fun a p => insertIfAbsent (normPair p) a) acc := by
  induction pairs with
  | nil => exact fun acc x h => h
  | cons p rest ih =>
    intro acc x h
    exact ih _ x (mem_insertIfAbsent_of_mem _ h)

theorem mem_schemasFold_of_mem_pairs (pairs : List SchemaKey) :
    ∀ (acc : List SchemaKey) (p : SchemaKey), p ∈ pairs →
      normPair p ∈ pairs.foldl (fun a q => insertIfAbsent (normPair q) a) acc := by
  induction pairs with
  | nil => intro acc p h; cases h
  | cons q rest ih =>
    intro acc p h
    rcases List.mem_cons.1 h with rfl | h
    · exact mem_schemasFold_of_mem rest _ _ (mem_insertIfAbsent_self _ _)
    · exact ih _ p h

/-- C1 counterexample: with requested pairs `(D1, A)` and `(D2, B)`, the object
`(D1, B, T)` returned by listing database `D1` IS inserted into the cache (its
lowercased schema name `b` is among the requested schema names), even though
its normalized (database, schema) pair `(d1, b)` is NOT in the requested set —
refuting the claim that an object is inserted only if its normalized
(database, schema) pair is requested. -/
theorem bulkInsert_pair_scoping_counterexample :
    databaseObjectToRelation exRowC1 ∈ bulkAdded exListerC1 exSchemasC1 emptyCache ∧
    (strLower (databaseObjectToRelation exRowC1).database,
        strLower (databaseObjectToRelation exRowC1).schema) ∉
      exSchemasC1.map (fun cs => normPair (cs.database, cs.schema)) := by
  decide

/-- C1 (amended): the per-database object-listing query is issued exactly once
per distinct database among the requested pairs (never once per schema), and a
returned object is inserted into the cache iff its lowercased schema name is
among the lowercased requested schema names — the filter consults the schema
name only, not the object's (database, schema) pair. -/
theorem bulk_one_query_per_database
    (lister : Str → Except DbtError (List DatabaseObjectRow))
    (cs : List CacheSchema) (cache cfin : RelationsCache) (qs : List Str)
    (adds : List SnowflakeRelation)
    (h : relationsCacheForSchemas lister cs cache = .ok (cfin, qs, adds)) :
    qs.Nodup ∧
    (∀ d, d ∈ qs ↔ d ∈ cs.map CacheSchema.database) ∧
    (∀ r, r ∈ adds ↔ ∃ db ∈ qs, ∃ results, lister db = .ok results ∧
      ∃ row ∈ results,
        strLower row.schema_name ∈ cs.map (fun c => strLower c.schema) ∧
        r = databaseObjectToRelation row) := by
  simp only [relationsCacheForSchemas] at h
  cases hb : bulkLoadDatabases lister (cs.map fun c => strLower c.schema)
      (cs.map CacheSchema.database).dedup cache with
  | error e => rw [hb] at h; simp at h
  | ok trip =>
    obtain ⟨c1, queried, added⟩ := trip
    rw [hb] at h
    simp only [Except.ok.injEq, Prod.mk.injEq] at h
    obtain ⟨_, h2, h3⟩ := h
    subst h2; subst h3
    obtain ⟨hq, _, hmem⟩ := bulkLoadDatabases_ok lister _ _ _ _ _ _ hb
    subst hq
    refine ⟨List.nodup_dedup _, fun d => List.mem_dedup, fun r => ?_⟩
    exact hmem r

/-- Witness for the amended C1 at a concrete input: one requested pair, a
lister returning no rows; a database is among those queried exactly when it is
among the requested databases. -/
theorem bulk_one_query_per_database_witness :
    ("db".toList ∈ (["db".toList] : List Str)) ↔
      "db".toList ∈
        ([⟨"db".toList, "s".toList⟩] : List CacheSchema).map
          CacheSchema.database :=
  (bulk_one_query_per_database (fun _ => .ok [])
    [⟨"db".toList, "s".toList⟩] emptyCache
    ⟨[], [("db".toList, "s".toList)]⟩ ["db".toList] []
    rfl).2.1 "db".toList

/-- C2: after a successful bulk population from an empty cache, every
requested (database, schema) pair is marked known — including pairs for which
the listing returned zero objects — and a pair to which no returned object
normalizes has an empty relation set. -/
theorem bulk_marks_schemas_known
    (lister : Str → Except DbtError (List DatabaseObjectRow))
    (cs : List CacheSchema) (cfin : RelationsCache) (qs : List Str)
    (adds : List SnowflakeRelation)
    (h : relationsCacheForSchemas lister cs emptyCache = .ok (cfin, qs, adds)) :
    (∀ p ∈ cs, isSchemaKnown cfin p.database p.schema) ∧
    (∀ d s, (∀ db results, lister db = .ok results → ∀ row ∈ results,
        (strLower row.database_name, strLower row.schema_name) ≠
          (strLower d, strLower s)) →
      getRelationsInSchema cfin d s = []) := by
  simp only [relationsCacheForSchemas] at h
  cases hb : bulkLoadDatabases lister (cs.map fun c => strLower c.schema)
      (cs.map CacheSchema.database).dedup emptyCache with
  | error e => rw [hb] at h; simp at h
  | ok trip =>
    obtain ⟨c1, queried, added⟩ := trip
    rw [hb] at h
    simp only [Except.ok.injEq, Prod.mk.injEq] at h
    obtain ⟨h1, -, h3⟩ := h
    obtain ⟨-, hc, hmem⟩ := bulkLoadDatabases_ok lister _ _ _ _ _ _ hb
    constructor
    · intro p hp
      rw [← h1]
      have hpair : (p.database, p.schema) ∈ cs.map fun c => (c.database, c.schema) :=
        List.mem_map.2 ⟨p, hp, rfl⟩
      exact mem_schemasFold_of_mem_pairs _ _ _ hpair
    · intro d s hrows
      rw [← h1]
      unfold getRelationsInSchema
      have hrel : (updateSchemas c1 (cs.map fun c => (c.database, c.schema))).relations
          = c1.relations := rfl
      rw [hrel, hc]
      have hnil : List.filter
          (fun p : RelKey × SnowflakeRelation =>
            decide (p.1.1 = strLower d ∧ p.1.2.1 = strLower s))
          (List.foldl cacheAdd emptyCache added).relations = [] := by
        rw [List.filter_eq_nil_iff]
        intro e he
        rcases mem_relations_foldl_cacheAdd added emptyCache e he with h4 | h4
        · obtain ⟨r, hr, hk⟩ := h4
          obtain ⟨db, -, results, hres, row, hrow, -, rfl⟩ := (hmem r).1 hr
          have hne := hrows db results hres row hrow
          have hk1 : e.1.1 = strLower row.database_name := by rw [hk]; rfl
          have hk2 : e.1.2.1 = strLower row.schema_name := by rw [hk]; rfl
          simp only [decide_eq_true_eq]
          rintro ⟨ha, hb2⟩
          refine hne ?_
          rw [Prod.mk.injEq]
          exact ⟨hk1.symm.trans ha, hk2.symm.trans hb2⟩
        · exact absurd h4 (List.not_mem_nil e)
      rw [hnil]
      rfl

/-- Witness for C2 at the spec's concrete scenario: bulk-populating
`[(db, empty_schema)]` with a lister returning no rows leaves the pair known
and its relation set empty. -/
theorem bulk_marks_schemas_known_witness :
    isSchemaKnown ⟨[], [("db".toList, "empty_schema".toList)]⟩
      "db".toList "empty_schema".toList ∧
    getRelationsInSchema ⟨[], [("db".toList, "empty_schema".toList)]⟩
      "db".toList "empty_schema".toList = [] := by
  have h := bulk_marks_schemas_known (fun _ => .ok [])
    [⟨"db".toList, "empty_schema".toList⟩]
    ⟨[], [("db".toList, "empty_schema".toList)]⟩ ["db".toList] [] rfl
  refine ⟨h.1 ⟨"db".toList, "empty_schema".toList⟩ (by decide), ?_⟩
  refine h.2 "db".toList "empty_schema".toList ?_
  intro db results hres row hrow
  injection hres with hres
  subst hres
  exact absurd hrow (List.not_mem_nil row)

/-- If some requested database's listing fails, the per-database loop never
returns a success, wherever in the iteration order the failing database sits. -/
theorem bulkLoadDatabases_ne_ok
    (lister : Str → Except DbtError (List DatabaseObjectRow))
    (names : List Str) :
    ∀ (dbs : List Str) (cache : RelationsCache) (db : Str) (e : DbtError),
      db ∈ dbs → lister db = .error e →
      ∀ out, bulkLoadDatabases lister names dbs cache ≠ .ok out := by
  intro dbs
  induction dbs with
  | nil => intro cache db e hmem; cases hmem
  | cons d rest ih =>
    intro cache db e hmem hle out hok
    simp only [bulkLoadDatabases] at hok
    cases hl : lister d with
    | error e1 =>
      rw [hl] at hok
      cases e1 <;> simp at hok
    | ok results =>
      rw [hl] at hok
      dsimp only at hok
      rcases List.mem_cons.1 hmem with rfl | hmem1
      · rw [hl] at hle
        simp at hle
      · cases hrec : bulkLoadDatabases lister names rest
            (List.foldl (fun c row => cacheAdd c (databaseObjectToRelation row))
              cache
              (results.filter fun row =>
                decide (strLower row.schema_name ∈ names))) with
        | error e2 => rw [hrec] at hok; simp at hok
        | ok trip => exact ih _ db e hmem1 hle trip hrec

/-- When some requested database's listing fails and every listing failure is
a database error, the per-database loop returns the wrapped runtime error of
the first failing database in iteration order. -/
theorem bulkLoadDatabases_first_database_error
    (lister : Str → Except DbtError (List DatabaseObjectRow))
    (names : List Str) :
    ∀ (dbs : List Str) (cache : RelationsCache),
      (∃ d ∈ dbs, ∃ e, lister d = .error e) →
      (∀ d ∈ dbs, ∀ e, lister d = .error e →
        ∃ m, e = DbtError.databaseError m) →
      ∃ d m, d ∈ dbs ∧ lister d = .error (.databaseError m) ∧
        bulkLoadDatabases lister names dbs cache =
          .error (.runtimeError (listObjectsErrorMsg d m)) := by
  intro dbs
  induction dbs with
  | nil =>
    rintro cache ⟨d, hd, -⟩ -
    cases hd
  | cons d rest ih =>
    rintro cache ⟨d0, hd0, e0, he0⟩ hall
    cases hl : lister d with
    | error e1 =>
      obtain ⟨m, rfl⟩ := hall d (List.mem_cons_self d rest) e1 hl
      refine ⟨d, m, List.mem_cons_self d rest, hl, ?_⟩
      simp only [bulkLoadDatabases]
      rw [hl]
    | ok results =>
      have hd0r : d0 ∈ rest := by
        rcases List.mem_cons.1 hd0 with rfl | h
        · rw [hl] at he0
          simp at he0
        · exact h
      obtain ⟨d1, m, hmem, hle, heq⟩ := ih
        (List.foldl (fun c row => cacheAdd c (databaseObjectToRelation row))
          cache
          (results.filter fun row =>
            decide (strLower row.schema_name ∈ names)))
        ⟨d0, hd0r, e0, he0⟩
        (fun d2 h2 => hall d2 (List.mem_cons_of_mem d h2))
      refine ⟨d1, m, List.mem_cons_of_mem d hmem, hle, ?_⟩
      simp only [bulkLoadDatabases]
      rw [hl]
      dsimp only
      rw [heq]

/-- C8: `list_schemas` and the per-database listing step of bulk population
wrap a database error into a generic runtime failure whose message carries the
target database name and the original error message; the failure is never
suppressed — whenever any distinct requested database's listing fails with a
database error, the bulk operation returns no success, and (all listing
failures being database errors) it returns the wrapped runtime error of a
failing database; on success `list_schemas` returns the values of the `name`
column. -/
theorem database_listing_errors_wrapped (db msg : Str) (rows : List SchemaRow)
    (lister : Str → Except DbtError (List DatabaseObjectRow))
    (cs : List CacheSchema) (cache : RelationsCache) :
    (list_schemas db (.error (.databaseError msg)) =
      .error (.runtimeError (listSchemasErrorMsg db msg))) ∧
    (db <:+: listSchemasErrorMsg db msg) ∧
    (msg <:+: listSchemasErrorMsg db msg) ∧
    (list_schemas db (.ok rows) = .ok (rows.map SchemaRow.name)) ∧
    (db ∈ cs.map CacheSchema.database →
      lister db = .error (.databaseError msg) →
      (∀ out, relationsCacheForSchemas lister cs cache ≠ .ok out) ∧
      ((∀ d ∈ cs.map CacheSchema.database, ∀ e, lister d = .error e →
          ∃ m, e = DbtError.databaseError m) →
        ∃ d m, d ∈ cs.map CacheSchema.database ∧
          lister d = .error (.databaseError m) ∧
          relationsCacheForSchemas lister cs cache =
            .error (.runtimeError (listObjectsErrorMsg d m)))) ∧
    (db <:+: listObjectsErrorMsg db msg) ∧
    (msg <:+: listObjectsErrorMsg db msg) := by
  refine ⟨rfl, ?_, ?_, rfl, ?_, ?_, ?_⟩
  · simp only [listSchemasErrorMsg, ← List.append_assoc]
    exact (List.infix_append _ _ _).trans (List.prefix_append _ _).isInfix
  · simp only [listSchemasErrorMsg, ← List.append_assoc]
    exact (List.suffix_append _ _).isInfix
  · intro hdb hl
    constructor
    · intro out hok
      simp only [relationsCacheForSchemas] at hok
      cases hb : bulkLoadDatabases lister (cs.map fun c => strLower c.schema)
          (cs.map CacheSchema.database).dedup cache with
      | error e => rw [hb] at hok; simp at hok
      | ok trip =>
        exact bulkLoadDatabases_ne_ok lister (cs.map fun c => strLower c.schema)
          (cs.map CacheSchema.database).dedup cache db (.databaseError msg)
          (List.mem_dedup.2 hdb) hl trip hb
    · intro hall
      obtain ⟨d, m, hmem, hle, heq⟩ :=
        bulkLoadDatabases_first_database_error lister
          (cs.map fun c => strLower c.schema)
          (cs.map CacheSchema.database).dedup cache
          ⟨db, List.mem_dedup.2 hdb, DbtError.databaseError msg, hl⟩
          (fun d2 h2 => hall d2 (List.mem_dedup.1 h2))
      refine ⟨d, m, List.mem_dedup.1 hmem, hle, ?_⟩
      simp only [relationsCacheForSchemas]
      rw [heq]
  · simp only [listObjectsErrorMsg, ← List.append_assoc]
    exact (List.infix_append _ _ _).trans (List.prefix_append _ _).isInfix
  · simp only [listObjectsErrorMsg, ← List.append_assoc]
    exact (List.suffix_append _ _).isInfix

/-- Witness for C8 at a concrete input: a failing schema listing in database
`analytics` and a failing per-database object listing both surface as wrapped
runtime failures. -/
theorem database_listing_errors_wrapped_witness :
    list_schemas "analytics".toList (.error (.databaseError "boom".toList)) =
      .error (.runtimeError
        (listSchemasErrorMsg "analytics".toList "boom".toList)) ∧
    relationsCacheForSchemas (fun _ => .error (.databaseError "boom".toList))
      [⟨"analytics".toList, "public".toList⟩] emptyCache =
      .error (.runtimeError
        (listObjectsErrorMsg "analytics".toList "boom".toList)) := by
  have h := database_listing_errors_wrapped "analytics".toList "boom".toList []
    (fun _ => .error (.databaseError "boom".toList))
    [⟨"analytics".toList, "public".toList⟩] emptyCache
  refine ⟨h.1, ?_⟩
  have hall : ∀ d ∈ ([⟨"analytics".toList, "public".toList⟩] :
        List CacheSchema).map CacheSchema.database, ∀ e,
      (fun _ : Str =>
        (.error (.databaseError "boom".toList) :
          Except DbtError (List DatabaseObjectRow))) d = .error e →
      ∃ m, e = DbtError.databaseError m := by
    intro d hd e he
    injection he with he
    exact ⟨"boom".toList, he.symm⟩
  obtain ⟨d, m, hmem, hle, heq⟩ := (h.2.2.2.2.1 (by decide) rfl).2 hall
  have hd : d = "analytics".toList := by simpa using hmem
  subst hd
  injection hle with hle
  injection hle with hle
  subst hle
  exact heq

/-! ### Bulk-populate atomicity -/

/-- The cache produced by a successful `set_relations_cache` run equals the
sequential application of its mutation list (optional clear, adds, mark-known)
to the pre-bulk cache. -/
theorem set_relations_cache_mutations
    (lister : Str → Except DbtError (List DatabaseObjectRow))
    (cs : List CacheSchema) (clear : Bool) (cache cfin : RelationsCache)
    (qs : List Str) (adds : List SnowflakeRelation)
    (h : set_relations_cache lister cs clear cache = .ok (cfin, qs, adds)) :
    applyMutations cache
      (bulkMutations clear adds (cs.map fun c => (c.database, c.schema))) = cfin := by
  unfold set_relations_cache at h
  simp only [relationsCacheForSchemas] at h
  cases hb : bulkLoadDatabases lister (cs.map fun c => strLower c.schema)
      (cs.map CacheSchema.database).dedup
      (if clear then cacheClear cache else cache) with
  | error e => rw [hb] at h; simp at h
  | ok trip =>
    obtain ⟨c1, queried, added⟩ := trip
    rw [hb] at h
    simp only [Except.ok.injEq, Prod.mk.injEq] at h
    obtain ⟨h1, -, h3⟩ := h
    obtain ⟨-, hc, -⟩ := bulkLoadDatabases_ok lister _ _ _ _ _ _ hb
    have hsteps : applyMutations cache
        (bulkMutations clear adds (cs.map fun c => (c.database, c.schema))) =
        updateSchemas
          (List.foldl cacheAdd (if clear then cacheClear cache else cache) adds)
          (cs.map fun c => (c.database, c.schema)) := by
      cases clear <;>
        simp [applyMutations, bulkMutations, List.foldl_append, List.foldl_map,
          applyMutation]
    rw [hsteps, ← h3, ← hc, h1]

/-- Every interleaving step preserves the invariant. -/
theorem schedInv_step (ms : List CacheMutation) (c0 : RelationsCache)
    {s s' : SchedState} (hstep : SchedStep s s') (hinv : SchedInv ms c0 s) :
    SchedInv ms c0 s' := by
  obtain ⟨hw, ho⟩ := hinv
  cases hstep with
  | wAcquire w r c o =>
    refine ⟨?_, ho⟩
    rcases hw with ⟨h1, h2, -⟩ | ⟨done, rest, -, h2, -, h4⟩ | ⟨h1, -, -⟩
    · simp only [writerEvents] at h1
      injection h1 with h1a h1
      exact Or.inr (Or.inl ⟨[], ms, rfl, h1, h2, rfl⟩)
    · exact absurd h4.symm (by simp)
    · exact absurd h1 (by simp)
  | wMutate m w r c o =>
    refine ⟨?_, ho⟩
    rcases hw with ⟨h1, -, h3⟩ | ⟨done, rest, h1, h2, h3, -⟩ | ⟨h1, -, -⟩
    · exact absurd rfl h3
    · cases rest with
      | nil => simp at h2
      | cons m1 rest1 =>
        simp only [List.map_cons, List.cons_append, List.cons.injEq] at h2
        obtain ⟨hm, h2⟩ := h2
        injection hm with hm
        refine Or.inr (Or.inl ⟨done ++ [m1], rest1, by rw [h1, List.append_assoc]; rfl,
          h2, ?_, rfl⟩)
        simp only [applyMutations, List.foldl_append, List.foldl_cons,
          List.foldl_nil] at h3 ⊢
        rw [h3, hm]
    · exact absurd h1 (by simp)
  | wRelease w r c o =>
    refine ⟨?_, ho⟩
    rcases hw with ⟨h1, -, h3⟩ | ⟨done, rest, h1, h2, h3, -⟩ | ⟨h1, -, -⟩
    · exact absurd rfl h3
    · cases rest with
      | nil =>
        simp only [List.map_nil, List.nil_append, List.cons.injEq] at h2
        refine Or.inr (Or.inr ⟨h2.2, ?_, by simp⟩)
        rw [h3, h1, List.append_nil]
      | cons m1 rest1 => simp at h2
    · exact absurd h1 (by simp)
  | rAcquire w r c o =>
    refine ⟨?_, ho⟩
    rcases hw with ⟨h1, h2, -⟩ | ⟨done, rest, -, -, -, h4⟩ | ⟨h1, h2, -⟩
    · exact Or.inl ⟨h1, h2, by simp⟩
    · exact absurd h4.symm (by simp)
    · exact Or.inr (Or.inr ⟨h1, h2, by simp⟩)
  | rRead w r c o =>
    rcases hw with ⟨h1, h2, -⟩ | ⟨done, rest, -, -, -, h4⟩ | ⟨h1, h2, -⟩
    · exact ⟨Or.inl ⟨h1, h2, by simp⟩, Or.inr (Or.inl (congrArg some h2))⟩
    · exact absurd h4.symm (by simp)
    · exact ⟨Or.inr (Or.inr ⟨h1, h2, by simp⟩),
        Or.inr (Or.inr (congrArg some h2))⟩
  | rRelease w r c o =>
    refine ⟨?_, ho⟩
    rcases hw with ⟨h1, h2, -⟩ | ⟨done, rest, -, -, -, h4⟩ | ⟨h1, h2, -⟩
    · exact Or.inl ⟨h1, h2, by simp⟩
    · exact absurd h4.symm (by simp)
    · exact Or.inr (Or.inr ⟨h1, h2, by simp⟩)

/-- The invariant holds at the initial configuration. -/
theorem schedInv_init (ms : List CacheMutation) (c0 : RelationsCache) :
    SchedInv ms c0 (initSched ms c0) :=
  ⟨Or.inl ⟨rfl, rfl, by simp [initSched]⟩, Or.inl rfl⟩

/-- The invariant holds at every reachable configuration. -/
theorem schedInv_reach (ms : List CacheMutation) (c0 : RelationsCache)
    {s : SchedState} (h : SchedReach (initSched ms c0) s) : SchedInv ms c0 s := by
  induction h with
  | refl => exact schedInv_init ms c0
  | tail _ hstep ih => exact schedInv_step ms c0 hstep ih

/-- C3: the whole bulk population (optional clear plus reload) runs under one
hold of the cache's exclusive lock, so in any interleaving with a concurrent
locked reader, the reader observes either the pre-bulk cache or the fully
populated post-bulk cache — never a partial mix. -/
theorem bulk_populate_atomic
    (lister : Str → Except DbtError (List DatabaseObjectRow))
    (cs : List CacheSchema) (clear : Bool) (cache cfin : RelationsCache)
    (qs : List Str) (adds : List SnowflakeRelation)
    (hrun : set_relations_cache lister cs clear cache = .ok (cfin, qs, adds))
    (s : SchedState) (obs : RelationsCache)
    (hreach : SchedReach
      (initSched
        (bulkMutations clear adds (cs.map fun c => (c.database, c.schema)))
        cache) s)
    (hobs : s.observed = some obs) :
    obs = cache ∨ obs = cfin := by
  have hfin := set_relations_cache_mutations lister cs clear cache cfin qs adds hrun
  have hinv := schedInv_reach _ _ hreach
  rcases hinv.2 with h | h | h
  · rw [hobs] at h; cases h
  · rw [hobs] at h
    injection h with h
    exact Or.inl h
  · rw [hobs] at h
    injection h with h
    rw [hfin] at h
    exact Or.inr h

/-- Witness for C3 at a concrete input: a reader that runs entirely before the
writer's critical section observes exactly the pre-bulk cache. -/
theorem bulk_populate_atomic_witness :
    emptyCache = emptyCache ∨
      emptyCache = (⟨[], [("db".toList, "s".toList)]⟩ : RelationsCache) :=
  bulk_populate_atomic (fun _ => .ok []) [⟨"db".toList, "s".toList⟩] false
    emptyCache ⟨[], [("db".toList, "s".toList)]⟩ ["db".toList] [] rfl
    ⟨[], [], none,
      applyMutation emptyCache
        (CacheMutation.markSchemas [("db".toList, "s".toList)]),
      some emptyCache⟩
    emptyCache
    (by
      refine Relation.ReflTransGen.head (SchedStep.rAcquire _ _ _ _) ?_
      refine Relation.ReflTransGen.head (SchedStep.rRead _ _ _ _) ?_
      refine Relation.ReflTransGen.head (SchedStep.rRelease _ _ _ _) ?_
      refine Relation.ReflTransGen.head (SchedStep.wAcquire _ _ _ _) ?_
      refine Relation.ReflTransGen.head (SchedStep.wMutate _ _ _ _ _) ?_
      refine Relation.ReflTransGen.head (SchedStep.wRelease _ _ _ _) ?_
      exact Relation.ReflTransGen.refl)
    rfl

/-! ### Warehouse-Context Hook -/

theorem pre_model_hook_default_eq (cfg : Option (Option Str)) (dflt : Option Str)
    (st : Session) (h : cfg.getD dflt = dflt ∨ cfg.getD dflt = none) :
    pre_model_hook cfg dflt st = (none, st) := by
  rcases h with h | h
  · unfold pre_model_hook
    rw [h]
    cases dflt with
    | none => rfl
    | some d => simp
  · unfold pre_model_hook
    rw [h]

theorem pre_model_hook_switch_eq (cfg : Option (Option Str)) (dflt : Option Str)
    (st : Session) (w : Str) (hw : cfg.getD dflt = some w) (hne : some w ≠ dflt) :
    pre_model_hook cfg dflt st =
      (some st.warehouse,
        ⟨w, st.log ++ [currentWarehouseQuery, useWarehouseStmt w]⟩) := by
  unfold pre_model_hook
  rw [hw]
  dsimp only
  rw [if_neg hne]
  simp [getWarehouse, useWarehouse]

/-- C9: `pre_model_hook` returns no saved context (and leaves the session
untouched) when the requested warehouse equals the session default or is
unspecified; otherwise it queries the active warehouse, switches to the
requested one, and returns the previously active warehouse;
`post_model_hook` issues the restoring switch exactly when a saved context
was returned. -/
theorem model_hook_switch (cfg : Option (Option Str)) (dflt : Option Str)
    (st : Session) :
    (cfg.getD dflt = dflt ∨ cfg.getD dflt = none →
      pre_model_hook cfg dflt st = (none, st)) ∧
    (∀ w, cfg.getD dflt = some w → some w ≠ dflt →
      pre_model_hook cfg dflt st =
        (some st.warehouse,
          ⟨w, st.log ++ [currentWarehouseQuery, useWarehouseStmt w]⟩)) ∧
    (∀ c, post_model_hook (some c) st = useWarehouse st c) ∧
    (post_model_hook none st = st) :=
  ⟨pre_model_hook_default_eq cfg dflt st,
    fun w hw hne => pre_model_hook_switch_eq cfg dflt st w hw hne,
    fun _ => rfl, rfl⟩

/-- Witness for C9 at a concrete input: requesting `wh2` over default `wh1`
queries the current warehouse, switches, and saves the previous warehouse. -/
theorem model_hook_switch_witness :
    pre_model_hook (some (some "wh2".toList)) (some "wh1".toList)
      ⟨"wh1".toList, []⟩ =
      (some "wh1".toList,
        ⟨"wh2".toList,
          ([] : List Str) ++
            [currentWarehouseQuery, useWarehouseStmt "wh2".toList]⟩) :=
  (model_hook_switch (some (some "wh2".toList)) (some "wh1".toList)
    ⟨"wh1".toList, []⟩).2.1 "wh2".toList rfl (by decide)

/-- C10: the requested warehouse is compared to the session default by exact
string equality with no normalization or case folding — any string inequality,
in particular a difference only in letter case, triggers the
query-current/switch/restore cycle — and the warehouse name is interpolated
verbatim and unquoted into the generated use-warehouse statement. -/
theorem warehouse_compared_verbatim (w : Str) (dflt : Option Str) (st : Session) :
    (some w ≠ dflt →
      pre_model_hook (some (some w)) dflt st =
        (some st.warehouse,
          ⟨w, st.log ++
            [currentWarehouseQuery, "use warehouse ".toList ++ w]⟩)) ∧
    (useWarehouseStmt w = "use warehouse ".toList ++ w) ∧
    (pre_model_hook (some (some "wh".toList)) (some "WH".toList) st =
      (some st.warehouse,
        ⟨"wh".toList,
          st.log ++ [currentWarehouseQuery, useWarehouseStmt "wh".toList]⟩)) :=
  ⟨fun hne => pre_model_hook_switch_eq (some (some w)) dflt st w rfl hne, rfl,
    pre_model_hook_switch_eq (some (some "wh".toList)) (some "WH".toList) st
      "wh".toList rfl (by decide)⟩

/-- Witness for C10 at a concrete input: requested `wh` differing from default
`WH` only in case triggers the switch, with the name interpolated verbatim. -/
theorem warehouse_compared_verbatim_witness :
    pre_model_hook (some (some "wh".toList)) (some "WH".toList)
      ⟨"WH".toList, []⟩ =
      (some "WH".toList,
        ⟨"wh".toList,
          ([] : List Str) ++
            [currentWarehouseQuery, "use warehouse ".toList ++ "wh".toList]⟩) :=
  (warehouse_compared_verbatim "wh".toList (some "WH".toList)
    ⟨"WH".toList, []⟩).1 (by decide)
